import Mathlib

/-!
Verification development for the ced2gnn node/graph construction engine.

Shallow embedding of:
  * `src/modules/mya.py` — the `Sampler` class (`steps_between`, `number_of_steps`,
    `queryParams`, `data`, `set_data`, the constructor's date check);
  * the node-construction loop shared by `src/main.py` (lines 116-134) and
    `src/ced2graph.py` (lines 157-175);
  * the entry-point control flow of both scripts around `populate_links`,
    the empty-node-list check, and `write_data_sets`;
  * `node.List.populate_links` (modelled from the spec, `modules/node.py`
    is not part of the sources).

Dates are modelled as calendar tuples; the library call
`pandas.to_datetime` on a canonical `yyyy-mm-dd hh:mm:ss` string is modelled
by the proleptic-Gregorian second count `toSec`, and the raw argument string
of such a date is recovered by `render` (its exact ASCII code sequence).
Python string comparison is the lexicographic order `strLt` on code sequences.
-/

/-- A parsed datetime (the model of a `pandas.Timestamp` carrying the six
calendar fields of a `yyyy-mm-dd hh:mm:ss` input). -/
structure DT where
  year : Nat
  month : Nat
  day : Nat
  hour : Nat
  minute : Nat
  second : Nat
deriving DecidableEq

/-- Gregorian leap-year test. -/
def isLeap (y : Nat) : Bool :=
  (y % 4 == 0 && y % 100 != 0) || y % 400 == 0

/-- Length in days of month `m` (1-12) of year `y`; 0 for out-of-range months. -/
def daysInMonth (y m : Nat) : Nat :=
  match m with
  | 1 => 31
  | 2 => if isLeap y then 29 else 28
  | 3 => 31
  | 4 => 30
  | 5 => 31
  | 6 => 30
  | 7 => 31
  | 8 => 31
  | 9 => 30
  | 10 => 31
  | 11 => 30
  | 12 => 31
  | _ => 0

/-- Days in year `y`. -/
def daysInYear (y : Nat) : Nat :=
  if isLeap y then 366 else 365

/-- Cumulative number of days of year `y` that precede month `m`
(cumulative month-length table; `m = 13` gives the whole year). -/
def daysBeforeMonth (y m : Nat) : Nat :=
  (match m with
   | 1 => 0
   | 2 => 31
   | 3 => 59
   | 4 => 90
   | 5 => 120
   | 6 => 151
   | 7 => 181
   | 8 => 212
   | 9 => 243
   | 10 => 273
   | 11 => 304
   | 12 => 334
   | _ => 365)
  + (if 3 ≤ m && isLeap y then 1 else 0)

/-- Days in all years strictly before year `y` (proleptic Gregorian, counted
from year 0; only differences of `toSec` values ever matter): 365 per year
plus one per leap year below `y`. -/
def daysBeforeYear (y : Nat) : Nat :=
  365 * y + (y + 3) / 4 - (y + 99) / 100 + (y + 399) / 400

/-- Zero-based day-of-year index of a date. -/
def dayOfYear (t : DT) : Nat :=
  daysBeforeMonth t.year t.month + (t.day - 1)

/-- Day count of a datetime's calendar date. -/
def dayNumber (t : DT) : Nat :=
  daysBeforeYear t.year + dayOfYear t

/-- Model of `pandas.to_datetime` on a canonical `yyyy-mm-dd hh:mm:ss` string:
seconds elapsed since 0000-01-01 00:00:00 (naive, timezone-free). -/
def toSec (t : DT) : Nat :=
  dayNumber t * 86400 + t.hour * 3600 + t.minute * 60 + t.second

/-- `toSec` as an integer timestamp. -/
def toSecZ (t : DT) : Int :=
  (toSec t : Int)

/-- The datetime is an actual calendar datetime (and small enough to render
in the documented fixed-width `yyyy-mm-dd hh:mm:ss` format). -/
def ValidDT (t : DT) : Bool :=
  decide (t.year < 10000) && decide (1 ≤ t.month) && decide (t.month ≤ 12) &&
  decide (1 ≤ t.day) && decide (t.day ≤ daysInMonth t.year t.month) &&
  decide (t.hour < 24) && decide (t.minute < 60) && decide (t.second < 60)

/-- Two-digit zero-padded decimal rendering, as ASCII codes. -/
def pad2 (n : Nat) : List Nat :=
  [48 + n / 10 % 10, 48 + n % 10]

/-- Four-digit zero-padded decimal rendering, as ASCII codes. -/
def pad4 (n : Nat) : List Nat :=
  [48 + n / 1000 % 10, 48 + n / 100 % 10, 48 + n / 10 % 10, 48 + n % 10]

/-- The ASCII code sequence of the canonical `yyyy-mm-dd hh:mm:ss` string of a
datetime (45 is the hyphen, 32 the space, 58 the colon).  This is both the raw
argument string handed to the `Sampler` constructor and the result of
`datetime.strftime(.., %Y-%m-%d %X)` used by `queryParams`. -/
def render (t : DT) : List Nat :=
  pad4 t.year ++ 45 :: (pad2 t.month ++ 45 :: (pad2 t.day ++
    32 :: (pad2 t.hour ++ 58 :: (pad2 t.minute ++ 58 :: pad2 t.second))))

/-- The six calendar fields as a list, for lexicographic (chronological)
comparison of datetimes. -/
def key (t : DT) : List Nat :=
  [t.year, t.month, t.day, t.hour, t.minute, t.second]

/-- Python's `<` on strings: strict lexicographic order on code sequences. -/
def strLt : List Nat → List Nat → Bool
  | _, [] => false
  | [], _ :: _ => true
  | a :: as, b :: bs => if a < b then true else if a = b then strLt as bs else false

/-!  The `Sampler` class of `src/modules/mya.py`.  The payload type of the
fetched rows is a type parameter `V` (the code never inspects row contents).
The module-level timezone `tz = gettz(America/New_York)` is modelled as an
offset function `off : Int → Int` giving, at a naive local timestamp, the
signed UTC offset in seconds; the timezone-aware value of a naive timestamp
`t` is `t - off t`. -/

/-- State of a `mya.Sampler` instance: the parsed begin/end dates, sampling
interval (seconds), PV channel list, and the lazily-fetched data cache. -/
structure Sampler (V : Type) where
  begin_date : DT
  end_date : DT
  interval : Int
  pv_list : List String
  _data : Option (List V)
deriving DecidableEq

/-- Constructor `Sampler.__init__` (mya.py lines 33-44): stores the parsed
dates, interval and pv list, then raises `RuntimeError` when the RAW ARGUMENT
STRINGS compare `begin_date >= end_date` (Python string comparison on the
canonical renderings). -/
def Sampler.init {V : Type} (b e : DT) (interval : Int) (pv : List String) :
    Except String (Sampler V) :=
  if strLt (render b) (render e) then
    Except.ok ⟨b, e, interval, pv, none⟩
  else
    Except.error "End date must be after Begin date"

/-- `Sampler.steps_between` (mya.py lines 51-59): make the two parsed dates
timezone-aware via the module timezone `off`, take the absolute difference,
divide by the interval and floor (`math.floor` of a nonnegative quotient is
natural division). -/
def Sampler.steps_between (off : Int → Int) (b e : Int) (interval : Int) : Nat :=
  ((e - off e) - (b - off b)).natAbs / interval.toNat

/-- `Sampler.number_of_steps` (mya.py lines 47-48). -/
def Sampler.number_of_steps {V : Type} (off : Int → Int) (s : Sampler V) : Nat :=
  Sampler.steps_between off (toSecZ s.begin_date) (toSecZ s.end_date) s.interval

/-- The query-parameter dictionary built by `Sampler.queryParams`. -/
structure QueryParams where
  b : List Nat
  s : Int
  n : Nat
  m : String
  channels : String
deriving DecidableEq

/-- `Sampler.queryParams` (mya.py lines 62-69).  `deployment` is the ambient
class/module-level mya deployment attribute visible to the method; the source
writes the LITERAL `ops` for key `m` and never reads the attribute. -/
def Sampler.queryParams {V : Type} (off : Int → Int) (deployment : String)
    (s : Sampler V) : QueryParams :=
  { b := render s.begin_date
    s := s.interval
    n := Sampler.number_of_steps off s
    m := "ops"
    channels := String.intercalate " " s.pv_list }

/-- Outcome of the one HTTP round-trip `requests.get` performed by
`Sampler.data`: either a response with an error status code, or a success
whose JSON `data` member is a list of rows. -/
inductive FetchResult (V : Type) where
  | badStatus
  | ok (rows : List V)
deriving DecidableEq

/-- Fetch branch of `Sampler.data` (mya.py lines 83-99): require a non-empty
pv list, perform the request, raise on a bad status, otherwise store the rows
in `_data` and return them.  The third component records that a fetch was
performed. -/
def Sampler.dataFetch {V : Type} (s : Sampler V) (response : FetchResult V) :
    Except String (List V × Sampler V × Bool) :=
  if s.pv_list.isEmpty then
    Except.error "No channels to fetch"
  else
    match response with
    | FetchResult.badStatus => Except.error "Mya web server returned an error status code"
    | FetchResult.ok rows => Except.ok (rows, { s with _data := some rows }, true)

/-- `Sampler.data` (mya.py lines 80-101): `if not self._data` — the cache is
consulted only when it is TRUTHY in Python's sense, so both `None` and the
empty list fall through to a fetch; otherwise the stored list is returned
with no fetch. -/
def Sampler.data {V : Type} (s : Sampler V) (response : FetchResult V) :
    Except String (List V × Sampler V × Bool) :=
  match s._data with
  | none => Sampler.dataFetch s response
  | some l => if l.isEmpty then Sampler.dataFetch s response else Except.ok (l, s, false)

/-- A Python value passed to `set_data`: a list of rows or a non-list. -/
inductive PyVal (V : Type) where
  | list (l : List V)
  | other (descr : String)
deriving DecidableEq

/-- `Sampler.set_data` (mya.py lines 107-110): `TypeError` unless the value is
a list (the exception leaves the object, hence `_data`, unchanged); otherwise
store it. -/
def Sampler.set_data {V : Type} (s : Sampler V) (val : PyVal V) :
    Except String (Sampler V) :=
  match val with
  | PyVal.list l => Except.ok { s with _data := some l }
  | PyVal.other _ => Except.error "Expected: list"

/-- Modelled from the spec: the timestamps actually sampled by the external
mySampler service for a window — samples at `begin + k * interval` that fall
before `end`, for `k` up to the requested step count (mya.py's docstring
example, lines 73-76, shows `n = 2` returning exactly the two samples at
00:00 and 01:00 of a 00:00-02:00 window; spec section 4.2 makes a zero-step
window yield a single sample). -/
def sampleTimes (b e interval : Int) (steps : Nat) : List Int :=
  ((List.range (steps + 1)).map (fun k => b + k * interval)).filter
    (fun t => decide (t < e))

/-- Modelled from the spec: per-window construction over a list of windows
(section 4.2 — a `begin >= end` window is "reported and fatal for that window
(not the whole run, if others remain valid)"); the per-window loop itself is
not part of the sources.  Invalid windows contribute an error report, valid
windows a constructed `Sampler`. -/
def processWindows {V : Type} (interval : Int) (pv : List String) :
    List (DT × DT) → List (Sampler V) × List String
  | [] => ([], [])
  | (b, e) :: ws =>
    let r := processWindows interval pv ws
    match Sampler.init b e interval pv with
    | Except.ok s => (s :: r.1, r.2)
    | Except.error msg => (r.1, msg :: r.2)

/-- Model of `gettz(America/New_York)` during 2021 (all instants this file
evaluates fall in that year): UTC offset -4h during daylight-saving time
(2021-03-14 02:00 to 2021-11-07 02:00, naive local clock) and -5h otherwise. -/
def nyOffset (t : Int) : Int :=
  if toSecZ ⟨2021, 3, 14, 2, 0, 0⟩ ≤ t && t < toSecZ ⟨2021, 11, 7, 2, 0, 0⟩ then
    -14400
  else
    -18000

/-!  The node-construction loop of `src/main.py` lines 116-134 (identical in
`src/ced2graph.py` lines 157-175). -/

/-- Modelled from the spec: the combined outcome, for one CED element, of
`node.List.make_node` and `Node.pv_data` (`modules/node.py` is not part of
the sources).  `noMatch` is `make_node` returning no node (no config type
rule matched — spec section 4.3); `fetchError` is `pv_data` raising the
domain-specific `mya.MyaException` for that element (spec sections 4.3 and
6); `success` carries the fetched per-element samples. -/
inductive Outcome (V : Type) where
  | noMatch
  | fetchError (msg : String)
  | success (pv : V)
deriving DecidableEq

/-- Whether an outcome is a success. -/
def Outcome.isSuccess {V : Type} : Outcome V → Bool
  | Outcome.success _ => true
  | _ => false

/-- A constructed node as the loop leaves it: its element, the `node_id`
assigned on append, and its fetched samples. -/
structure BNode (α V : Type) where
  element : α
  node_id : Nat
  pv : V
deriving DecidableEq

/-- The construction loop (main.py lines 116-134): starting from counter
`nid`, for each element try `make_node`; a falsy node (no type match) is
skipped; a `mya.MyaException` from the data fetch is caught and printed
(logged) and the loop continues; on success the node receives `node_id = nid`,
is appended, and the counter increments.  Returns the node list and the log. -/
def buildNodes {α V : Type} (outcome : α → Outcome V) :
    List α → Nat → List (BNode α V) × List String
  | [], _ => ([], [])
  | e :: rest, nid =>
    match outcome e with
    | Outcome.noMatch => buildNodes outcome rest nid
    | Outcome.fetchError msg =>
      let r := buildNodes outcome rest nid
      (r.1, msg :: r.2)
    | Outcome.success v =>
      let r := buildNodes outcome rest (nid + 1)
      (⟨e, nid, v⟩ :: r.1, r.2)

/-!  `node.List.populate_links`, modelled from the spec (section 4.4):
`modules/node.py` is not part of the sources. -/

/-- A node as the linker sees it: its `node_id`, whether its role is
setpoint, and its downstream associations (node ids). -/
structure LNode where
  node_id : Nat
  setpoint : Bool
  downstream : List Nat
deriving DecidableEq

/-- Modelled from the spec: the downstream collection of a setpoint — the
ids of the following nodes up to and including the next setpoint
(spec section 4.4). -/
def downSeg : List LNode → List Nat
  | [] => []
  | n :: rest => if n.setpoint then [n.node_id] else n.node_id :: downSeg rest

/-- Modelled from the spec: `node.List.populate_links` — one linear scan; each
setpoint's downstream collection is reset and refilled with the following
nodes up to and including the next setpoint; observers are untouched
(spec section 4.4). -/
def populate_links : List LNode → List LNode
  | [] => []
  | n :: rest =>
    (if n.setpoint then { n with downstream := downSeg rest } else n) ::
      populate_links rest

/-!  Entry-point control flow around linking, the empty-list check and output
writing: `src/main.py` lines 136-150 and `src/ced2graph.py` lines 176-188. -/

/-- An observable event of an entry-point run: a `populate_links` pass, a
write of output data sets by `node.List.write_data_sets` (modelled from the
spec, section 4.5: it emits one output unit per interval passing the global
filter — a write to the output directory), the fatal `RuntimeError` on an
empty node list, or normal continuation to the rest of the script. -/
inductive Ev where
  | link
  | write
  | abort
  | continued
deriving DecidableEq

/-- Event trace of `src/main.py` lines 136-150 as a function of the CLI
`--read-json` flag and the node count after construction: on the fetch path
the script links and WRITES DATA SETS (lines 136-139) before the empty-list
check (line 143), then on a non-empty list links and writes again
(lines 147-150). -/
def mainFlow (read_json : Bool) (node_count : Nat) : List Ev :=
  (if read_json then [] else [Ev.link, Ev.write]) ++
    (if node_count < 1 then [Ev.abort] else [Ev.link, Ev.write, Ev.continued])

/-- Event trace of `src/ced2graph.py` lines 176-188: on the fetch path the
script links (line 177), then checks for an empty node list (line 181), and
only on a non-empty list links again and writes (lines 185-188). -/
def ced2graphFlow (read_json : Bool) (node_count : Nat) : List Ev :=
  (if read_json then [] else [Ev.link]) ++
    (if node_count < 1 then [Ev.abort] else [Ev.link, Ev.write, Ev.continued])

/-!  Lemmas about the lexicographic order on rendered date strings. -/

theorem strLt_nil_right (l : List Nat) : strLt l [] = false := by
  cases l <;> rfl

theorem strLt_cons_cons (a b : Nat) (as bs : List Nat) :
    strLt (a :: as) (b :: bs) =
      if a < b then true else if a = b then strLt as bs else false := rfl

theorem strLt_cons_decide (a b : Nat) (as bs : List Nat) :
    strLt (a :: as) (b :: bs) =
      (decide (a < b) || (decide (a = b) && strLt as bs)) := by
  rw [strLt_cons_cons]
  by_cases h1 : a < b
  · simp [h1]
  · by_cases h2 : a = b <;> simp [h1, h2]

theorem strLt_append {xs ys : List Nat} (as bs : List Nat)
    (h : xs.length = ys.length) :
    strLt (xs ++ as) (ys ++ bs) =
      (strLt xs ys || (decide (xs = ys) && strLt as bs)) := by
  induction xs generalizing ys with
  | nil =>
    cases ys with
    | nil => simp [strLt_nil_right]
    | cons b bs' => simp at h
  | cons a as' ih =>
    cases ys with
    | nil => simp at h
    | cons b bs' =>
      simp only [List.cons_append, strLt_cons_decide, List.cons.injEq, Bool.decide_and]
      rw [ih (by simpa using h)]
      by_cases h1 : a < b
      · simp [h1]
      · by_cases h2 : a = b <;>
          simp [h1, h2, Bool.and_or_distrib_left, Bool.and_assoc]

theorem pad2_lt {m n : Nat} (hm : m < 100) (hn : n < 100) :
    strLt (pad2 m) (pad2 n) = decide (m < n) := by
  simp only [pad2, strLt_cons_cons, strLt_nil_right]
  split_ifs <;> symm <;>
    simp only [decide_eq_true_eq, decide_eq_false_iff_not] <;> omega

theorem pad2_eq_iff {m n : Nat} (hm : m < 100) (hn : n < 100) :
    pad2 m = pad2 n ↔ m = n := by
  simp only [pad2, List.cons.injEq, and_true]
  omega

theorem pad4_lt {m n : Nat} (hm : m < 10000) (hn : n < 10000) :
    strLt (pad4 m) (pad4 n) = decide (m < n) := by
  simp only [pad4, strLt_cons_cons, strLt_nil_right]
  split_ifs <;> symm <;>
    simp only [decide_eq_true_eq, decide_eq_false_iff_not] <;> omega

theorem pad4_eq_iff {m n : Nat} (hm : m < 10000) (hn : n < 10000) :
    pad4 m = pad4 n ↔ m = n := by
  simp only [pad4, List.cons.injEq, and_true]
  omega

theorem strLt_pad2_append {u v : Nat} (hu : u < 100) (hv : v < 100)
    (ra rb : List Nat) :
    strLt (pad2 u ++ ra) (pad2 v ++ rb) =
      (decide (u < v) || (decide (u = v) && strLt ra rb)) := by
  rw [strLt_append ra rb (by simp [pad2]), pad2_lt hu hv]
  congr 2
  simp [pad2_eq_iff hu hv]

theorem strLt_pad4_append {u v : Nat} (hu : u < 10000) (hv : v < 10000)
    (ra rb : List Nat) :
    strLt (pad4 u ++ ra) (pad4 v ++ rb) =
      (decide (u < v) || (decide (u = v) && strLt ra rb)) := by
  rw [strLt_append ra rb (by simp [pad4]), pad4_lt hu hv]
  congr 2
  simp [pad4_eq_iff hu hv]

theorem strLt_cons_same (c : Nat) (xs ys : List Nat) :
    strLt (c :: xs) (c :: ys) = strLt xs ys := by
  simp [strLt_cons_cons]

/-- For datetimes in the documented fixed-width format, Python's string
comparison of the rendered `yyyy-mm-dd hh:mm:ss` strings coincides with the
lexicographic (chronological) comparison of the calendar fields. -/
theorem strLt_render {a b : DT} (ha : ValidDT a = true) (hb : ValidDT b = true) :
    strLt (render a) (render b) = strLt (key a) (key b) := by
  simp only [ValidDT, Bool.and_eq_true, decide_eq_true_eq] at ha hb
  have hdm : ∀ y m, daysInMonth y m ≤ 31 := by
    intro y m
    unfold daysInMonth
    split <;> (try split) <;> omega
  have ham : a.month < 100 := by omega
  have hbm : b.month < 100 := by omega
  have had : a.day < 100 := by have := hdm a.year a.month; omega
  have hbd : b.day < 100 := by have := hdm b.year b.month; omega
  simp only [render, key]
  rw [strLt_pad4_append (by omega) (by omega), strLt_cons_same,
    strLt_pad2_append ham hbm, strLt_cons_same,
    strLt_pad2_append had hbd, strLt_cons_same,
    strLt_pad2_append (by omega) (by omega), strLt_cons_same,
    strLt_pad2_append (by omega) (by omega), strLt_cons_same,
    pad2_lt (by omega) (by omega)]
  simp only [strLt_cons_decide, strLt_nil_right, Bool.and_false, Bool.or_false]

theorem strLt_trichot : ∀ {xs ys : List Nat}, xs.length = ys.length →
    strLt xs ys = true ∨ xs = ys ∨ strLt ys xs = true := by
  intro xs
  induction xs with
  | nil => intro ys h; cases ys with
    | nil => exact Or.inr (Or.inl rfl)
    | cons b bs => simp at h
  | cons a as ih =>
    intro ys h
    cases ys with
    | nil => simp at h
    | cons b bs =>
      rcases Nat.lt_trichotomy a b with hab | hab | hab
      · exact Or.inl (by simp [strLt_cons_cons, hab])
      · subst hab
        rcases @ih bs (by simpa using h) with h1 | h1 | h1
        · exact Or.inl (by simp [strLt_cons_same, h1])
        · exact Or.inr (Or.inl (by rw [h1]))
        · exact Or.inr (Or.inr (by simp [strLt_cons_same, h1]))
      · exact Or.inr (Or.inr (by simp [strLt_cons_cons, hab]))

theorem key_inj {a b : DT} (h : key a = key b) : a = b := by
  simp only [key, List.cons.injEq, and_true] at h
  obtain ⟨h1, h2, h3, h4, h5, h6⟩ := h
  cases a; cases b
  simp_all

/-!  Calendar-arithmetic lemmas: `toSec` is strictly monotone in the
chronological (field-lexicographic) order of valid datetimes. -/

theorem daysBeforeMonth_add (y : Nat) {m : Nat} (h1 : 1 ≤ m) (h2 : m ≤ 12) :
    daysBeforeMonth y m + daysInMonth y m = daysBeforeMonth y (m + 1) := by
  interval_cases m <;>
    cases h : isLeap y <;>
      simp [daysBeforeMonth, daysInMonth, h]

theorem daysBeforeMonth_mono (y : Nat) : ∀ {m m' : Nat}, 1 ≤ m → m ≤ m' →
    m' ≤ 13 → daysBeforeMonth y m ≤ daysBeforeMonth y m' := by
  intro m m' hm hmm' h13
  induction m' with
  | zero => omega
  | succ k ih =>
    rcases Nat.lt_or_ge m (k + 1) with hlt | hge
    · have hk : daysBeforeMonth y k ≤ daysBeforeMonth y (k + 1) := by
        have := daysBeforeMonth_add y (m := k) (by omega) (by omega)
        omega
      exact le_trans (ih (by omega) (by omega)) hk
    · have : m = k + 1 := by omega
      subst this
      exact le_refl _

theorem daysBeforeMonth_year (y : Nat) :
    daysBeforeMonth y 13 = daysInYear y := by
  cases h : isLeap y <;> simp [daysBeforeMonth, daysInYear, h]

set_option maxHeartbeats 1000000 in
theorem daysBeforeYear_add (y : Nat) :
    daysBeforeYear (y + 1) = daysBeforeYear y + daysInYear y := by
  unfold daysBeforeYear daysInYear isLeap
  simp only [Bool.or_eq_true, Bool.and_eq_true, beq_iff_eq, bne_iff_ne, ne_eq]
  split_ifs <;> omega

theorem daysBeforeYear_mono {y y' : Nat} (h : y ≤ y') :
    daysBeforeYear y ≤ daysBeforeYear y' := by
  induction y' with
  | zero =>
    have hy0 : y = 0 := by omega
    subst hy0
    exact le_refl _
  | succ k ih =>
    rcases Nat.lt_or_ge y (k + 1) with hlt | hge
    · have h1 := ih (by omega)
      have h2 := daysBeforeYear_add k
      unfold daysInYear at h2
      rcases Bool.dichotomy (isLeap k) with hl | hl <;>
        simp only [hl] at h2 <;> omega
    · have : y = k + 1 := by omega
      subst this
      exact le_refl _

theorem dayOfYear_lt (t : DT) (hv : ValidDT t = true) :
    dayOfYear t < daysInYear t.year := by
  simp only [ValidDT, Bool.and_eq_true, decide_eq_true_eq] at hv
  have h1 : daysBeforeMonth t.year t.month + daysInMonth t.year t.month =
      daysBeforeMonth t.year (t.month + 1) :=
    daysBeforeMonth_add t.year (by omega) (by omega)
  have h2 : daysBeforeMonth t.year (t.month + 1) ≤ daysBeforeMonth t.year 13 :=
    daysBeforeMonth_mono t.year (by omega) (by omega) (by omega)
  have h3 := daysBeforeMonth_year t.year
  unfold dayOfYear
  omega

/-- Strict monotonicity of the parse model: a chronologically earlier valid
datetime has a strictly smaller second count. -/
theorem toSec_strictMono {a b : DT} (ha : ValidDT a = true) (hb : ValidDT b = true)
    (h : strLt (key a) (key b) = true) : toSec a < toSec b := by
  obtain ⟨ya, ma, da, hha, mia, sa⟩ := a
  obtain ⟨yb, mb, db, hhb, mib, sb⟩ := b
  simp only [ValidDT, Bool.and_eq_true, decide_eq_true_eq] at ha hb
  simp only [key, strLt_cons_decide, strLt_nil_right, Bool.and_false, Bool.or_false,
    Bool.or_eq_true, Bool.and_eq_true, decide_eq_true_eq] at h
  simp only [toSec, dayNumber, dayOfYear]
  rcases h with hy | ⟨hy, h⟩
  · -- strictly earlier year
    have h1 : daysBeforeMonth ya ma + daysInMonth ya ma =
        daysBeforeMonth ya (ma + 1) :=
      daysBeforeMonth_add ya (by omega) (by omega)
    have h2 : daysBeforeMonth ya (ma + 1) ≤ daysBeforeMonth ya 13 :=
      daysBeforeMonth_mono ya (by omega) (by omega) (by omega)
    have h3 := daysBeforeMonth_year ya
    have h4 : daysBeforeYear (ya + 1) ≤ daysBeforeYear yb :=
      daysBeforeYear_mono (by omega)
    have h5 := daysBeforeYear_add ya
    simp only [daysInYear] at h3 h5
    rcases Bool.dichotomy (isLeap ya) with hl | hl <;>
      simp only [hl] at h3 h5 <;> omega
  subst hy
  rcases h with hm | ⟨hm, h⟩
  · -- same year, strictly earlier month
    have h1 : daysBeforeMonth ya ma + daysInMonth ya ma =
        daysBeforeMonth ya (ma + 1) :=
      daysBeforeMonth_add ya (by omega) (by omega)
    have h2 : daysBeforeMonth ya (ma + 1) ≤ daysBeforeMonth ya mb :=
      daysBeforeMonth_mono ya (by omega) (by omega) (by omega)
    omega
  subst hm
  rcases h with hd | ⟨hd, h⟩
  · -- same month, strictly earlier day
    omega
  subst hd
  -- same calendar day: compare the time of day
  omega

/-!  Lemmas on the node-construction loop. -/

/-- Every node the loop appends came from a success outcome. -/
theorem buildNodes_success {α V : Type} (outcome : α → Outcome V) :
    ∀ (es : List α) (nid : Nat) (nd : BNode α V),
      nd ∈ (buildNodes outcome es nid).1 → ∃ v, outcome nd.element = Outcome.success v := by
  intro es
  induction es with
  | nil => intro nid nd h; simp [buildNodes] at h
  | cons e rest ih =>
    intro nid nd h
    unfold buildNodes at h
    cases ho : outcome e with
    | noMatch =>
      rw [ho] at h
      exact ih nid nd h
    | fetchError msg =>
      rw [ho] at h
      exact ih nid nd h
    | success v =>
      rw [ho] at h
      rcases List.mem_cons.mp h with h1 | h1
      · subst h1
        exact ⟨v, ho⟩
      · exact ih (nid + 1) nd h1

/-- Unfolding equation for one loop iteration. -/
theorem buildNodes_cons {α V : Type} (outcome : α → Outcome V) (e : α)
    (rest : List α) (nid : Nat) :
    buildNodes outcome (e :: rest) nid =
      match outcome e with
      | Outcome.noMatch => buildNodes outcome rest nid
      | Outcome.fetchError msg =>
        ((buildNodes outcome rest nid).1, msg :: (buildNodes outcome rest nid).2)
      | Outcome.success v =>
        (⟨e, nid, v⟩ :: (buildNodes outcome rest (nid + 1)).1,
          (buildNodes outcome rest (nid + 1)).2) := rfl

/-- Dropping one fetch-error element from the inventory leaves the node list
unchanged, and the loop records the error message in the log. -/
theorem buildNodes_fetchError {α V : Type} (outcome : α → Outcome V)
    (E : α) (msg : String) (hE : outcome E = Outcome.fetchError msg) :
    ∀ (pre post : List α) (nid : Nat),
      (buildNodes outcome (pre ++ E :: post) nid).1 =
        (buildNodes outcome (pre ++ post) nid).1 ∧
      msg ∈ (buildNodes outcome (pre ++ E :: post) nid).2 := by
  intro pre
  induction pre with
  | nil =>
    intro post nid
    simp only [List.nil_append, buildNodes_cons, hE]
    simp
  | cons a pre' ih =>
    intro post nid
    simp only [List.cons_append, buildNodes_cons]
    cases ho : outcome a with
    | noMatch => exact ih post nid
    | fetchError m2 =>
      have h := ih post nid
      refine ⟨h.1, ?_⟩
      simp only [List.mem_cons]
      exact Or.inr h.2
    | success v =>
      have h := ih post (nid + 1)
      refine ⟨?_, h.2⟩
      simp only [h.1]

/-- The `node_id`s handed out by the loop from counter `nid` are
`nid, nid + 1, ...` in order, one per success outcome. -/
theorem buildNodes_ids {α V : Type} (outcome : α → Outcome V) :
    ∀ (es : List α) (nid : Nat),
      (buildNodes outcome es nid).1.map (fun nd => nd.node_id) =
        (List.range (es.filter (fun e => (outcome e).isSuccess)).length).map
          (fun k => k + nid) := by
  intro es
  induction es with
  | nil => intro nid; simp [buildNodes]
  | cons e rest ih =>
    intro nid
    rw [buildNodes_cons]
    cases ho : outcome e with
    | noMatch => simpa [List.filter_cons, ho, Outcome.isSuccess] using ih nid
    | fetchError m => simpa [List.filter_cons, ho, Outcome.isSuccess] using ih nid
    | success v =>
      simp only [List.filter_cons, ho, Outcome.isSuccess, if_pos, List.length_cons,
        List.map_cons, List.range_succ_eq_map, List.map_map]
      rw [ih (nid + 1)]
      congr 1
      · omega
      · apply List.map_congr_left
        intro k hk
        simp only [Function.comp]
        omega

/-!  Lemmas on `populate_links`. -/

/-- Linking changes neither `node_id` nor the setpoint flag of any node, so
the downstream segment computed from a linked list is the one computed from
the original list. -/
theorem downSeg_populate_links : ∀ l : List LNode,
    downSeg (populate_links l) = downSeg l := by
  intro l
  induction l with
  | nil => rfl
  | cons n rest ih =>
    unfold populate_links downSeg
    cases hs : n.setpoint <;> simp [hs, ih]

/-!  Claim theorems. -/

/-- C1: if the per-element time-series fetch of element `E` fails with the
domain-specific `mya.MyaException` during the node-construction loop, the
error is caught and its message logged, `E` is excluded from the node list,
and the remaining elements are processed exactly as if `E` were absent (so
no later element's `node_id` shifts). -/
theorem C1_fetch_error_logged_and_skipped {α V : Type} (outcome : α → Outcome V)
    (E : α) (msg : String) (pre post : List α) (nid : Nat)
    (hE : outcome E = Outcome.fetchError msg) :
    (buildNodes outcome (pre ++ E :: post) nid).1 =
      (buildNodes outcome (pre ++ post) nid).1 ∧
    msg ∈ (buildNodes outcome (pre ++ E :: post) nid).2 ∧
    ∀ nd ∈ (buildNodes outcome (pre ++ E :: post) nid).1, nd.element ≠ E := by
  have h := buildNodes_fetchError outcome E msg hE pre post nid
  refine ⟨h.1, h.2, ?_⟩
  intro nd hnd hne
  obtain ⟨v, hv⟩ := buildNodes_success outcome (pre ++ E :: post) nid nd hnd
  rw [hne, hE] at hv
  simp at hv

/-- C1 witness: a concrete three-element inventory whose middle element
fails its fetch. -/
theorem C1_fetch_error_logged_and_skipped_witness :
    (buildNodes (fun n : Nat => if n = 1 then Outcome.fetchError "fetch failed"
        else Outcome.success ()) ([0] ++ 1 :: [2]) 0).1 =
      (buildNodes (fun n : Nat => if n = 1 then Outcome.fetchError "fetch failed"
        else Outcome.success ()) ([0] ++ [2]) 0).1 ∧
    "fetch failed" ∈ (buildNodes (fun n : Nat => if n = 1 then
        Outcome.fetchError "fetch failed" else Outcome.success ())
        ([0] ++ 1 :: [2]) 0).2 ∧
    ∀ nd ∈ (buildNodes (fun n : Nat => if n = 1 then Outcome.fetchError "fetch failed"
        else Outcome.success ()) ([0] ++ 1 :: [2]) 0).1, nd.element ≠ 1 :=
  C1_fetch_error_logged_and_skipped
    (fun n : Nat => if n = 1 then Outcome.fetchError "fetch failed"
      else Outcome.success ()) 1 "fetch failed" [0] [2] 0 (by simp)

/-- C2: evaluation of the two entry points at the failing input (fetch path,
empty node list).  In `src/main.py` a `write_data_sets` write event occurs
BEFORE the abort raised by the empty-node-list check (lines 136-150), so the
claim fails on that script; `src/ced2graph.py` (lines 176-188) performs no
write before the abort. -/
theorem C2_main_writes_before_empty_check :
    Ev.write ∈ (mainFlow false 0).takeWhile (fun ev => decide (ev ≠ Ev.abort)) ∧
    Ev.abort ∈ mainFlow false 0 ∧
    Ev.write ∉ (ced2graphFlow false 0).takeWhile (fun ev => decide (ev ≠ Ev.abort)) ∧
    Ev.abort ∈ ced2graphFlow false 0 := by
  decide

/-- C3: after the construction loop, the `node_id`s of the produced node
list are exactly `0, 1, ..., k-1` in order, where `k` is the number of
elements whose outcome was a success (type rule matched and samples fetched);
skipped elements leave no gap. -/
theorem C3_node_ids_contiguous {α V : Type} (outcome : α → Outcome V)
    (es : List α) :
    (buildNodes outcome es 0).1.map (fun nd => nd.node_id) =
      List.range ((es.filter (fun e => (outcome e).isSuccess)).length) := by
  have h := buildNodes_ids outcome es 0
  simpa using h

/-- C5: running `populate_links` a second time on an already-linked node
list reproduces exactly the same list, hence the same edge set — setpoint
downstream collections are reset and recomputed, not appended to. -/
theorem C5_populate_links_idempotent (l : List LNode) :
    populate_links (populate_links l) = populate_links l := by
  induction l with
  | nil => rfl
  | cons n rest ih =>
    cases hs : n.setpoint <;>
      simp [populate_links, hs, ih, downSeg_populate_links]

/-- C8: `steps_between` is symmetric in its begin and end dates (it takes the
absolute value of the timezone-aware difference). -/
theorem C8_steps_between_symmetric (off : Int → Int) (b e interval : Int) :
    Sampler.steps_between off b e interval =
      Sampler.steps_between off e b interval := by
  unfold Sampler.steps_between
  congr 1
  omega

/-- C9: `queryParams` sends the literal string `ops` for the deployment key
`m`, whatever the ambient deployment attribute holds; two runs differing only
in the configured mya deployment produce identical query parameters. -/
theorem C9_queryParams_deployment_independent {V : Type} (off : Int → Int)
    (s : Sampler V) (d1 d2 : String) :
    (Sampler.queryParams off d1 s).m = "ops" ∧
    Sampler.queryParams off d1 s = Sampler.queryParams off d2 s :=
  ⟨rfl, rfl⟩

/-- Floor of a quotient of natural casts is natural division. -/
theorem floor_natCast_div_natCast (n m : Nat) (hm : 0 < m) :
    ⌊(n : ℚ) / (m : ℚ)⌋ = ((n / m : Nat) : Int) := by
  have hmq : (0 : ℚ) < (m : ℚ) := by exact_mod_cast hm
  rw [Int.floor_eq_iff]
  constructor
  · rw [le_div_iff₀ hmq]
    exact_mod_cast Nat.div_mul_le_self n m
  · rw [div_lt_iff₀ hmq]
    have h1 := Nat.div_add_mod n m
    have h2 := Nat.mod_lt n hm
    have h3 : n < (n / m + 1) * m := by
      calc n = m * (n / m) + n % m := (Nat.div_add_mod n m).symm
      _ < m * (n / m) + m := by omega
      _ = (n / m + 1) * m := by ring
    exact_mod_cast h3

/-- C4: `steps_between` computes the floor of the absolute timezone-aware
difference of the two dates divided by the interval; in particular on the
window 2021-11-10 00:00:00 to 2021-11-10 02:00:00 with a one-hour interval
(under the America/New_York offsets) it returns exactly 2. -/
theorem C4_steps_between_floor :
    (∀ (off : Int → Int) (b e interval : Int), 0 < interval →
      (Sampler.steps_between off b e interval : Int) =
        ⌊|((e - off e : Int) : ℚ) - ((b - off b : Int) : ℚ)| / ((interval : Int) : ℚ)⌋) ∧
    Sampler.steps_between nyOffset (toSecZ ⟨2021, 11, 10, 0, 0, 0⟩)
      (toSecZ ⟨2021, 11, 10, 2, 0, 0⟩) 3600 = 2 := by
  constructor
  · intro off b e interval hi
    have habs : |((e - off e : Int) : ℚ) - ((b - off b : Int) : ℚ)| =
        ((((e - off e) - (b - off b)).natAbs : Nat) : ℚ) := by
      rw [show ((e - off e : Int) : ℚ) - ((b - off b : Int) : ℚ) =
          ((((e - off e) - (b - off b)) : Int) : ℚ) by push_cast; ring]
      rw [← Int.cast_abs]
      exact (Nat.cast_natAbs _).symm
    have hiq : ((interval : Int) : ℚ) = ((interval.toNat : Nat) : ℚ) := by
      have := Int.toNat_of_nonneg hi.le
      exact_mod_cast this.symm
    rw [habs, hiq, Sampler.steps_between,
      floor_natCast_div_natCast _ _ (by omega)]
  · decide

/-- C4 witness: the general floor formula applied to the concrete
2021-11-10 two-hour window. -/
theorem C4_steps_between_floor_witness :
    (Sampler.steps_between nyOffset (toSecZ ⟨2021, 11, 10, 0, 0, 0⟩)
        (toSecZ ⟨2021, 11, 10, 2, 0, 0⟩) 3600 : Int) =
      ⌊|((toSecZ ⟨2021, 11, 10, 2, 0, 0⟩ - nyOffset (toSecZ ⟨2021, 11, 10, 2, 0, 0⟩) : Int) : ℚ) -
          ((toSecZ ⟨2021, 11, 10, 0, 0, 0⟩ - nyOffset (toSecZ ⟨2021, 11, 10, 0, 0, 0⟩) : Int) : ℚ)| /
        ((3600 : Int) : ℚ)⌋ :=
  C4_steps_between_floor.1 nyOffset (toSecZ ⟨2021, 11, 10, 0, 0, 0⟩)
    (toSecZ ⟨2021, 11, 10, 2, 0, 0⟩) 3600 (by decide)

/-- On canonical-format dates, a chronologically non-increasing pair makes the
constructor raise. -/
theorem Sampler_init_error {V : Type} {b e : DT} (hb : ValidDT b = true)
    (he : ValidDT e = true) (hge : strLt (key b) (key e) = false)
    (i : Int) (pv : List String) :
    Sampler.init b e i pv =
      (Except.error "End date must be after Begin date" : Except String (Sampler V)) := by
  unfold Sampler.init
  rw [strLt_render hb he, hge]
  simp

/-- Unfolding equation for one window of `processWindows`. -/
theorem processWindows_cons {V : Type} (i : Int) (pv : List String)
    (b e : DT) (ws : List (DT × DT)) :
    (processWindows i pv ((b, e) :: ws) : List (Sampler V) × List String) =
      match (Sampler.init b e i pv : Except String (Sampler V)) with
      | Except.ok s =>
        (s :: (processWindows i pv ws : List (Sampler V) × List String).1,
          (processWindows i pv ws : List (Sampler V) × List String).2)
      | Except.error msg =>
        ((processWindows i pv ws : List (Sampler V) × List String).1,
          msg :: (processWindows i pv ws : List (Sampler V) × List String).2) := rfl

/-- C6: for date arguments in the documented format with begin chronologically
at or after end, the `Sampler` constructor raises its configuration error
instead of producing a window; and in per-window processing the bad window is
skipped with its report while every other window's `Sampler` survives — the
error is fatal for that window only, not for the run. -/
theorem C6_begin_ge_end_fatal_per_window (V : Type) (b e : DT) (i : Int)
    (pv : List String) (hb : ValidDT b = true) (he : ValidDT e = true)
    (hge : strLt (key b) (key e) = false) :
    Sampler.init b e i pv =
      (Except.error "End date must be after Begin date" : Except String (Sampler V)) ∧
    ∀ (pre post : List (DT × DT)),
      (processWindows i pv (pre ++ (b, e) :: post) : List (Sampler V) × List String).1 =
        (processWindows i pv (pre ++ post)).1 := by
  refine ⟨Sampler_init_error hb he hge i pv, ?_⟩
  intro pre
  induction pre with
  | nil =>
    intro post
    simp only [List.nil_append, processWindows_cons,
      Sampler_init_error hb he hge i pv]
  | cons w pre' ih =>
    intro post
    obtain ⟨b2, e2⟩ := w
    simp only [List.cons_append, processWindows_cons]
    cases hinit : (Sampler.init b2 e2 i pv : Except String (Sampler V)) with
    | ok s => simp [ih post]
    | error m => simp [ih post]

/-- C6 witness: a reversed two-hour window is rejected, and processing a
window list containing it still constructs the valid second window. -/
theorem C6_begin_ge_end_fatal_per_window_witness :
    Sampler.init ⟨2021, 11, 10, 2, 0, 0⟩ ⟨2021, 11, 10, 0, 0, 0⟩ 3600 [] =
      (Except.error "End date must be after Begin date" : Except String (Sampler Unit)) ∧
    (processWindows 3600 []
        ([] ++ (⟨2021, 11, 10, 2, 0, 0⟩, ⟨2021, 11, 10, 0, 0, 0⟩) ::
          [(⟨2021, 11, 10, 0, 0, 0⟩, ⟨2021, 11, 10, 2, 0, 0⟩)]) :
        List (Sampler Unit) × List String).1 =
      (processWindows 3600 []
        ([] ++ [(⟨2021, 11, 10, 0, 0, 0⟩, ⟨2021, 11, 10, 2, 0, 0⟩)])).1 := by
  have h := C6_begin_ge_end_fatal_per_window Unit ⟨2021, 11, 10, 2, 0, 0⟩
    ⟨2021, 11, 10, 0, 0, 0⟩ 3600 [] (by decide) (by decide) (by decide)
  exact ⟨h.1, h.2 [] [(⟨2021, 11, 10, 0, 0, 0⟩, ⟨2021, 11, 10, 2, 0, 0⟩)]⟩

/-- C7: a window of strictly positive duration smaller than one interval is
legal — the constructor succeeds, `number_of_steps` returns 0, and the window
yields a single sample rather than failing. -/
theorem C7_zero_step_window_legal (V : Type) (off : Int → Int) (b e : DT)
    (i : Int) (pv : List String)
    (hb : ValidDT b = true) (he : ValidDT e = true)
    (hpos : toSec b < toSec e)
    (hsmall : |(toSecZ e - off (toSecZ e)) - (toSecZ b - off (toSecZ b))| < i) :
    Sampler.init b e i pv = (Except.ok ⟨b, e, i, pv, none⟩ : Except String (Sampler V)) ∧
    Sampler.number_of_steps off (⟨b, e, i, pv, none⟩ : Sampler V) = 0 ∧
    (sampleTimes (toSecZ b) (toSecZ e) i
        (Sampler.number_of_steps off (⟨b, e, i, pv, none⟩ : Sampler V))).length = 1 := by
  have h6 : ((toSecZ e - off (toSecZ e) - (toSecZ b - off (toSecZ b))).natAbs : Int) < i := by
    rw [Int.natCast_natAbs]
    exact hsmall
  have hkey : strLt (key b) (key e) = true := by
    rcases @strLt_trichot (key b) (key e) (by simp [key]) with h | h | h
    · exact h
    · exfalso
      rw [key_inj h] at hpos
      omega
    · exfalso
      have := toSec_strictMono he hb h
      omega
  have hsteps : Sampler.number_of_steps off (⟨b, e, i, pv, none⟩ : Sampler V) = 0 := by
    simp only [Sampler.number_of_steps, Sampler.steps_between]
    apply Nat.div_eq_of_lt
    omega
  refine ⟨?_, hsteps, ?_⟩
  · unfold Sampler.init
    rw [strLt_render hb he, hkey]
    simp
  · have h3 : toSecZ b < toSecZ e := by
      unfold toSecZ
      exact_mod_cast hpos
    rw [hsteps]
    simp only [sampleTimes]
    rw [show List.range (0 + 1) = [0] from rfl]
    simp [h3]

/-- C7 witness: the half-hour window 2021-11-10 00:00:00 to 00:30:00 with a
one-hour interval. -/
theorem C7_zero_step_window_legal_witness :
    Sampler.init ⟨2021, 11, 10, 0, 0, 0⟩ ⟨2021, 11, 10, 0, 30, 0⟩ 3600 ["ch"] =
      (Except.ok ⟨⟨2021, 11, 10, 0, 0, 0⟩, ⟨2021, 11, 10, 0, 30, 0⟩, 3600, ["ch"], none⟩ :
        Except String (Sampler Unit)) ∧
    Sampler.number_of_steps nyOffset
      (⟨⟨2021, 11, 10, 0, 0, 0⟩, ⟨2021, 11, 10, 0, 30, 0⟩, 3600, ["ch"], none⟩ : Sampler Unit) = 0 ∧
    (sampleTimes (toSecZ ⟨2021, 11, 10, 0, 0, 0⟩) (toSecZ ⟨2021, 11, 10, 0, 30, 0⟩) 3600
        (Sampler.number_of_steps nyOffset
          (⟨⟨2021, 11, 10, 0, 0, 0⟩, ⟨2021, 11, 10, 0, 30, 0⟩, 3600, ["ch"], none⟩ :
            Sampler Unit))).length = 1 :=
  C7_zero_step_window_legal Unit nyOffset ⟨2021, 11, 10, 0, 0, 0⟩ ⟨2021, 11, 10, 0, 30, 0⟩
    3600 ["ch"] (by decide) (by decide) (by decide) (by decide)

/-- C10 counterexample: on a concrete `Sampler`, `set_data` with the EMPTY
list succeeds and stores it, yet the next `data()` call performs another
fetch (third component `true`) and returns the fetched rows rather than the
stored empty list — the stored empty list is falsy, so the cache test
`if not self._data` re-fetches, refuting the claim as stated. -/
theorem C10_empty_list_cache_counterexample :
    Sampler.set_data
        (⟨⟨2021, 11, 10, 0, 0, 0⟩, ⟨2021, 11, 10, 2, 0, 0⟩, 3600, ["ch"], none⟩ : Sampler Nat)
        (PyVal.list []) =
      Except.ok ⟨⟨2021, 11, 10, 0, 0, 0⟩, ⟨2021, 11, 10, 2, 0, 0⟩, 3600, ["ch"], some []⟩ ∧
    Sampler.data
        (⟨⟨2021, 11, 10, 0, 0, 0⟩, ⟨2021, 11, 10, 2, 0, 0⟩, 3600, ["ch"], some []⟩ : Sampler Nat)
        (FetchResult.ok [42]) =
      Except.ok ([42],
        ⟨⟨2021, 11, 10, 0, 0, 0⟩, ⟨2021, 11, 10, 2, 0, 0⟩, 3600, ["ch"], some [42]⟩, true) :=
  ⟨rfl, rfl⟩

/-- C10 (amended): once `data()` has succeeded with a NON-EMPTY row list, or
`set_data` has stored a NON-EMPTY list, every subsequent `data()` call
returns that stored list unchanged and performs no fetch; `set_data` with a
non-list raises `TypeError`, leaving the stored data unchanged.  (An empty
stored list is falsy and triggers a refetch — see the counterexample.) -/
theorem C10_data_cache_amended {V : Type} (s : Sampler V) (l rows : List V)
    (r r2 : FetchResult V) (descr : String)
    (hl : l ≠ []) (hrows : rows ≠ []) (hpv : s.pv_list ≠ []) (hd : s._data = none) :
    (Sampler.set_data s (PyVal.list l) = Except.ok { s with _data := some l } ∧
      Sampler.data { s with _data := some l } r =
        Except.ok (l, { s with _data := some l }, false)) ∧
    (Sampler.data s (FetchResult.ok rows) =
        Except.ok (rows, { s with _data := some rows }, true) ∧
      Sampler.data { s with _data := some rows } r2 =
        Except.ok (rows, { s with _data := some rows }, false)) ∧
    Sampler.set_data s (PyVal.other descr) = Except.error "Expected: list" := by
  have hlE : l.isEmpty = false := by
    cases l
    · exact absurd rfl hl
    · rfl
  have hrowsE : rows.isEmpty = false := by
    cases rows
    · exact absurd rfl hrows
    · rfl
  have hpvE : s.pv_list.isEmpty = false := by
    cases hpv2 : s.pv_list
    · exact absurd hpv2 hpv
    · rfl
  refine ⟨⟨rfl, ?_⟩, ⟨?_, ?_⟩, rfl⟩
  · simp [Sampler.data, hlE]
  · simp [Sampler.data, hd, Sampler.dataFetch, hpvE]
  · simp [Sampler.data, hrowsE]

/-- C10 amended witness: a concrete sampler, stored list `[7]`, fetch rows
`[5]`. -/
theorem C10_data_cache_amended_witness :
    (Sampler.set_data
        (⟨⟨2021, 11, 10, 0, 0, 0⟩, ⟨2021, 11, 10, 2, 0, 0⟩, 3600, ["ch"], none⟩ : Sampler Nat)
        (PyVal.list [7]) =
      Except.ok ⟨⟨2021, 11, 10, 0, 0, 0⟩, ⟨2021, 11, 10, 2, 0, 0⟩, 3600, ["ch"], some [7]⟩ ∧
      Sampler.data
        (⟨⟨2021, 11, 10, 0, 0, 0⟩, ⟨2021, 11, 10, 2, 0, 0⟩, 3600, ["ch"], some [7]⟩ : Sampler Nat)
        FetchResult.badStatus =
      Except.ok ([7],
        ⟨⟨2021, 11, 10, 0, 0, 0⟩, ⟨2021, 11, 10, 2, 0, 0⟩, 3600, ["ch"], some [7]⟩, false)) ∧
    (Sampler.data
        (⟨⟨2021, 11, 10, 0, 0, 0⟩, ⟨2021, 11, 10, 2, 0, 0⟩, 3600, ["ch"], none⟩ : Sampler Nat)
        (FetchResult.ok [5]) =
      Except.ok ([5],
        ⟨⟨2021, 11, 10, 0, 0, 0⟩, ⟨2021, 11, 10, 2, 0, 0⟩, 3600, ["ch"], some [5]⟩, true) ∧
      Sampler.data
        (⟨⟨2021, 11, 10, 0, 0, 0⟩, ⟨2021, 11, 10, 2, 0, 0⟩, 3600, ["ch"], some [5]⟩ : Sampler Nat)
        FetchResult.badStatus =
      Except.ok ([5],
        ⟨⟨2021, 11, 10, 0, 0, 0⟩, ⟨2021, 11, 10, 2, 0, 0⟩, 3600, ["ch"], some [5]⟩, false)) ∧
    Sampler.set_data
        (⟨⟨2021, 11, 10, 0, 0, 0⟩, ⟨2021, 11, 10, 2, 0, 0⟩, 3600, ["ch"], none⟩ : Sampler Nat)
        (PyVal.other "a string") =
      Except.error "Expected: list" :=
  C10_data_cache_amended
    (⟨⟨2021, 11, 10, 0, 0, 0⟩, ⟨2021, 11, 10, 2, 0, 0⟩, 3600, ["ch"], none⟩ : Sampler Nat)
    [7] [5] FetchResult.badStatus FetchResult.badStatus "a string"
    (by simp) (by simp) (by simp) rfl
